import Mathlib

/-!
Verification of the `MarkOpsForOutsideCompilation` MLIR pass
(`tensorflow/compiler/mlir/tensorflow/transforms/mark_ops_for_outside_compilation.cc`).

The IR is embedded as a finite tree of operations.  Each operation carries a
kind (dialect + op name), operand and result values (each value is an SSA id
together with its element type, i.e. `getElementTypeOrSelf` has already been
applied), the optional `allow_soft_placement` boolean attribute, and a list of
nested regions; a region is a block-argument list together with the list of
operations of its (single) block.

Operations are identified by their path from the module root: a path element
`(r, i)` selects operation `i` of region `r`.  Following the design note of
the specification (attribute-as-marker as a side table), the
`_xla_outside_compilation` string attribute is modelled as its presence bit,
kept in a path-indexed marking `Path → Bool`, which the two phases of the
pass transform.  The pass never creates, deletes or moves operations, so
paths are stable identifiers across a run.
-/

namespace MarkOutside

/-- Element types, as seen through `getElementTypeOrSelf`: either the TF
string type or some other type (indexed by a tag we never inspect). -/
inductive TType : Type where
  | tstring : TType
  | tother : Nat → TType
deriving DecidableEq

/-- `type.isa<TF::StringType>()` on an element type. -/
def TType.isString : TType → Bool
  | .tstring => true
  | .tother _ => false

/-- An SSA value: its identifier and its element type. -/
structure Value where
  vid : Nat
  vty : TType
deriving DecidableEq

/-- An operation kind: `OperationName` = dialect plus op name. -/
structure OpKind where
  dialect : String
  opname : String
deriving DecidableEq

/-- The dialect governed by the pass (`getLoadedDialect("tf")`). -/
def tfDialect : String := "tf"

/-- `tf_device.cluster`, the cluster (gated-region) boundary op. -/
def clusterKind : OpKind := ⟨ "tf_device", "cluster" ⟩

/-- `TF::IfRegionOp`. -/
def ifRegionKind : OpKind := ⟨ "tf", "IfRegion" ⟩

/-- `TF::WhileRegionOp`. -/
def whileRegionKind : OpKind := ⟨ "tf", "WhileRegion" ⟩

/-- `TF::YieldOp`. -/
def yieldKind : OpKind := ⟨ "tf", "Yield" ⟩

/-- `TF::RecvTPUEmbeddingActivationsOp`. -/
def recvTPUEmbeddingActivationsKind : OpKind := ⟨ "tf", "RecvTPUEmbeddingActivations" ⟩

/-- `TF::SendTPUEmbeddingGradientsOp`. -/
def sendTPUEmbeddingGradientsKind : OpKind := ⟨ "tf", "SendTPUEmbeddingGradients" ⟩

mutual

/-- An operation: kind, operands, results, optional `allow_soft_placement`
boolean attribute, and nested regions. -/
inductive Op : Type where
  | mk : OpKind → List Value → List Value → Option Bool → List Rgn → Op

/-- A region: the block arguments and the operations of its block. -/
inductive Rgn : Type where
  | mk : List Value → List Op → Rgn

end

def Op.kind : Op → OpKind
  | .mk k _ _ _ _ => k

def Op.operands : Op → List Value
  | .mk _ os _ _ _ => os

def Op.results : Op → List Value
  | .mk _ _ rs _ _ => rs

/-- The value of the `allow_soft_placement` `BoolAttr`, when present. -/
def Op.softPlacement : Op → Option Bool
  | .mk _ _ _ sp _ => sp

def Op.regions : Op → List Rgn
  | .mk _ _ _ _ rs => rs

def Rgn.args : Rgn → List Value
  | .mk a _ => a

def Rgn.ops : Rgn → List Op
  | .mk _ os => os

mutual

/-- All operand values used by operations inside a region, transitively
through nested regions (the uses visited by `visitUsedValuesDefinedAbove`). -/
def rgnUses : Rgn → List Value
  | .mk _ os => opsUses os

def opsUses : List Op → List Value
  | [] => []
  | o :: os => opUses o ++ opsUses os

def opUses : Op → List Value
  | .mk _ operands _ _ rs => operands ++ rgnsUses rs

def rgnsUses : List Rgn → List Value
  | [] => []
  | r :: rs => rgnUses r ++ rgnsUses rs

end

mutual

/-- All value ids defined inside a region: its block arguments and,
transitively, the results and block arguments of everything it contains.
A value is "defined above" the region iff its id is not in this list. -/
def rgnDefs : Rgn → List Nat
  | .mk args os => args.map Value.vid ++ opsDefs os

def opsDefs : List Op → List Nat
  | [] => []
  | o :: os => opDefs o ++ opsDefs os

def opDefs : Op → List Nat
  | .mk _ _ results _ rs => results.map Value.vid ++ rgnsDefs rs

def rgnsDefs : List Rgn → List Nat
  | [] => []
  | r :: rs => rgnDefs r ++ rgnsDefs rs

end

/-- `HasStringOperand` (lines 69-74): some operand has string element type. -/
def hasStringOperand (op : Op) : Bool :=
  op.operands.any (fun v => v.vty.isString)

/-- `HasStringResult` (lines 76-81): some result has string element type. -/
def hasStringResult (op : Op) : Bool :=
  op.results.any (fun v => v.vty.isString)

/-- `MatchesPattern` (lines 83-86): the op's name is in `supported_ops`. -/
def matchesPattern (op : Op) (supportedOps : List OpKind) : Bool :=
  decide (op.kind ∈ supportedOps)

/-- `IsSupportedOp` (lines 88-99).  Ops not in the `tf` dialect are
supported; a `tf` op is supported iff it has no string operand or result and
its kind is in `supported_ops` or is allowed by the
`mhlo::IsOpAllowedTf2XlaFallback` predicate (modelled, per the spec's §9 open
question, as an opaque kind-level boolean `fallback`). -/
def isSupportedOp (supportedOps : List OpKind) (fallback : OpKind → Bool)
    (op : Op) : Bool :=
  if op.kind.dialect ≠ tfDialect then true
  else
    !hasStringOperand op && !hasStringResult op &&
      (matchesPattern op supportedOps || fallback op.kind)

/-- `llvm::isa<TF::IfRegionOp, TF::WhileRegionOp>(op)` (line 124). -/
def isControlFlowRegionOp (op : Op) : Bool :=
  decide (op.kind = ifRegionKind) || decide (op.kind = whileRegionKind)

/-- `HasCapturedStringOperand` (lines 101-113): some region of the op uses a
value that is defined above that region and has string element type. -/
def hasCapturedStringOperand (op : Op) : Bool :=
  op.regions.any (fun r =>
    (rgnUses r).any (fun v => v.vty.isString && !((rgnDefs r).contains v.vid)))

/-- The per-operation body of the `MarkUncompilableOps` walk (lines 119-130):
the op receives the `_xla_outside_compilation` attribute iff it is
unsupported, or it is an `IfRegion`/`WhileRegion` with a captured string
operand (the two `setAttr` branches write the same attribute, so their
disjunction is the net effect on the marker bit). -/
def shouldMark (supportedOps : List OpKind) (fallback : OpKind → Bool)
    (op : Op) : Bool :=
  !isSupportedOp supportedOps fallback op ||
    (isControlFlowRegionOp op && hasCapturedStringOperand op)

/-! ## Paths and the marking side table -/

/-- A path from the module root: `(r, i)` selects operation `i` of region
`r` of the current operation.  `[]` is the module root itself. -/
abbrev Path : Type := List (Nat × Nat)

/-- Operation `i` of region `r` of `o`, when it exists. -/
def getChild (o : Op) (r i : Nat) : Option Op :=
  (o.regions.get? r).bind (fun rg => rg.ops.get? i)

/-- The operation at a path, when the path is valid. -/
def getOp : Op → Path → Option Op
  | o, [] => some o
  | o, (r, i) :: p => (getChild o r i).bind (fun c => getOp c p)

/-- Whether a path denotes an operation of the tree. -/
def isOpAt (t : Op) (p : Path) : Bool :=
  (getOp t p).isSome

/-- `tf_device.cluster` with `allow_soft_placement = true` (lines 177-181,
194-198): the clusters whose body the pass processes. -/
def isGatedCluster (op : Op) : Bool :=
  decide (op.kind = clusterKind) && decide (op.softPlacement = some true)

/-- Whether the op at path `c` is a gated cluster. -/
def isGatedClusterAt (t : Op) (c : Path) : Bool :=
  match getOp t c with
  | some op => isGatedCluster op
  | none => false

/-- Whether the op at `p` lies inside the body of some gated cluster: some
strict ancestor `p.take k` is a gated cluster and `p` descends through its
region 0 (`cluster.GetBody()` is the block of the cluster's single region).
These are exactly the operations visited by `MarkUncompilableOps` and
`UnmarkChildren` across the two `module.walk`s of `runOnOperation`. -/
def inGatedBody (t : Op) (p : Path) : Bool :=
  (List.range p.length).any (fun k =>
    isGatedClusterAt t (p.take k) &&
      (match p.get? k with
       | some (r, _) => r == 0
       | none => false))

/-- `shouldMark` at a path (false on invalid paths). -/
def shouldMarkAt (supportedOps : List OpKind) (fallback : OpKind → Bool)
    (t : Op) (p : Path) : Bool :=
  match getOp t p with
  | some op => shouldMark supportedOps fallback op
  | none => false

/-- The ancestor check of `UnmarkChildren` (lines 140-148): walk the parent
chain of the op at `p` — the operations at the proper prefixes of `p`, up to
the module root — and test whether any of them currently carries the
`_xla_outside_compilation` attribute under marking `m`. -/
def ancMarked (t : Op) (m : Path → Bool) (p : Path) : Bool :=
  (List.range p.length).any (fun k => isOpAt t (p.take k) && m (p.take k))

/-! ## The two phases of the pass

`runOnOperation` (lines 153-201) first walks every `tf_device.cluster` of the
module and, for the gated ones, runs `MarkUncompilableOps` on the cluster
body; after all clusters are walked it makes a second cluster walk running
`UnmarkChildren` on the gated bodies.

The marking phase writes, for each operation visited through some gated
cluster body, the attribute iff `shouldMark` holds; the predicate reads only
the operation's structure (kinds, types, captured values), never the marker,
so the accumulated effect of the (possibly overlapping, when clusters nest)
per-cluster walks is the pointwise union below.

The pruning phase is order sensitive in principle, since `UnmarkChildren`
tests the parent chain against the current attribute state while it removes
attributes; `unmarkWalk` below is the direct embedding of that incremental
loop, and theorem `unmark_children_order_independent` proves it equal — for
any visitation order covering the marked ops — to the declarative
`prunerUnmark` used here: an op keeps the marker iff it is marked and no
strict ancestor is marked in the tree as the Walker left it. -/

/-- The Walker phase (`MarkUncompilableOps` over every gated cluster body,
lines 116-132 and 174-187). -/
def walkerMark (supportedOps : List OpKind) (fallback : OpKind → Bool)
    (t : Op) (m : Path → Bool) : Path → Bool :=
  fun p => m p ||
    (isOpAt t p && inGatedBody t p && shouldMarkAt supportedOps fallback t p)

/-- The Pruner phase (`UnmarkChildren` over every gated cluster body, lines
137-151 and 191-200), in its declarative form: a marked operation inside a
gated cluster body loses the marker iff some operation on its parent chain
(not stopping at the cluster boundary) is marked. -/
def prunerUnmark (t : Op) (m : Path → Bool) : Path → Bool :=
  fun p => m p && !(isOpAt t p && inGatedBody t p && ancMarked t m p)

/-- The full pass body after the dialect check: Walker, then Pruner. -/
def runPass (supportedOps : List OpKind) (fallback : OpKind → Bool)
    (t : Op) (m : Path → Bool) : Path → Bool :=
  prunerUnmark t (walkerMark supportedOps fallback t m)

/-! ## The incremental pruner -/

/-- One step of the `UnmarkChildren` walk (lines 138-150): if the visited op
currently carries the attribute and some op on its current parent chain does
too, remove it (`op->removeAttr`); otherwise leave the marking unchanged. -/
def unmarkVisit (t : Op) (m : Path → Bool) (p : Path) : Path → Bool :=
  if m p && ancMarked t m p then fun x => m x && !(decide (x = p)) else m

/-- The `UnmarkChildren` walk as a whole: visit the operations listed in `l`
in order, removing redundant markers incrementally. -/
def unmarkWalk (t : Op) (m : Path → Bool) (l : List Path) : Path → Bool :=
  l.foldl (unmarkVisit t) m

/-! ## Supported-operation-set builder and pass driver -/

/-- A rewrite rule of the catalog populated by
`mhlo::PopulateLegalizeTfPatterns`, reduced to the only part the builder
reads: `RewritePattern::getRootKind()`, an optional root operation kind
(`none` for patterns that match any operation). -/
structure RewriteRule where
  rootKind : Option OpKind

/-- The root kinds gathered by the loop at lines 168-170,
`supported_ops.insert(*pattern->getRootKind())`.  The loop dereferences the
optional root kind without a check; on a rule whose root kind is absent that
dereference is undefined behavior, modelled as `none` (no defined result). -/
def patternRootKinds : List RewriteRule → Option (List OpKind)
  | [] => some []
  | rule :: rest =>
    match rule.rootKind with
    | none => none
    | some k => (patternRootKinds rest).map (fun ks => k :: ks)

/-- The fixed additions: `AddSupportedControlFlowOps` (lines 50-58) and
`AddRewrittenEmbeddingOps` (lines 61-67). -/
def fixedSupportedOps : List OpKind :=
  [ifRegionKind, whileRegionKind, yieldKind,
   recvTPUEmbeddingActivationsKind, sendTPUEmbeddingGradientsKind]

/-- The `supported_ops` set as built by `runOnOperation` (lines 167-172):
the catalog's root kinds followed by the fixed control-flow and embedding
kinds; no defined result when some rule has no root kind. -/
def buildSupportedOps (catalog : List RewriteRule) : Option (List OpKind) :=
  (patternRootKinds catalog).map (fun ks => ks ++ fixedSupportedOps)

/-- Modelled from the spec (§4.1), for comparison with `buildSupportedOps`:
"if the rule declares a single deterministic root kind it targets, that kind
is added; rules without a single identifiable root kind are skipped".  The
skipping branch is absent from the source. -/
def buildSupportedOpsSpecSkip (catalog : List RewriteRule) : List OpKind :=
  (catalog.filterMap RewriteRule.rootKind) ++ fixedSupportedOps

/-- `MarkOpsForOutsideCompilation::runOnOperation` (lines 153-201) on a
module `t` with initial marking `m`.  `tfRegistered` says whether the `tf`
dialect is loaded in the context (line 155); when it is not, the pass emits
an error on the module and signals failure (lines 156-159) before touching
anything, returned as `(false, m)`.  Otherwise the supported set is built
and the two phases run; `MarkUncompilableOps` always returns `success()`, so
the cluster walk is never interrupted and the pass succeeds, `(true, _)`.
The outer `Option` is the undefined behavior of the builder on a catalog
rule with no root kind. -/
def runOnOperation (tfRegistered : Bool) (catalog : List RewriteRule)
    (fallback : OpKind → Bool) (t : Op) (m : Path → Bool) :
    Option (Bool × (Path → Bool)) :=
  if tfRegistered = false then some (false, m)
  else
    match buildSupportedOps catalog with
    | none => none
    | some sup => some (true, runPass sup fallback t m)

/-! ## Concrete fixtures

Small modules used to instantiate the theorems below on concrete inputs. -/

/-- An empty fallback predicate: no kind is legalizable by the fallback. -/
def fbNone : OpKind → Bool := fun _ => false

/-- The empty marking: no pre-existing `_xla_outside_compilation` attrs. -/
def mNone : Path → Bool := fun _ => false

/-- A module op wrapping a list of top-level ops in one region. -/
def mkModule (ops : List Op) : Op :=
  .mk ⟨ "builtin", "module" ⟩ [] [] none [.mk [] ops]

/-- A `tf`-dialect op with no operands, results or regions; unsupported
whenever its kind is outside the supported set and the fallback. -/
def opUnsup : Op := .mk ⟨ "tf", "Unsup" ⟩ [] [] none []

/-- A foreign-dialect op holding `opUnsup` in a nested region. -/
def opForeign : Op := .mk ⟨ "mhlo", "Wrap" ⟩ [] [] none [.mk [] [opUnsup]]

/-- A gated cluster whose body is `opForeign` (so `opUnsup` sits two levels
below the cluster body). -/
def clusterGatedW : Op := .mk clusterKind [] [] (some true) [.mk [] [opForeign]]

/-- module { cluster(gated) { opForeign { opUnsup } } } -/
def modW : Op := mkModule [clusterGatedW]

/-- module { cluster(gated) { cluster(no flag) { opUnsup } } }: an ungated
cluster nested inside a gated one. -/
def modNest : Op :=
  mkModule [.mk clusterKind [] [] (some true)
    [.mk [] [.mk clusterKind [] [] none [.mk [] [opUnsup]]]]]

/-- module { cluster(soft placement = false) { opUnsup } } -/
def modUngated : Op :=
  mkModule [.mk clusterKind [] [] (some false) [.mk [] [opUnsup]]]

/-- A `tf` op with a string-typed result. -/
def opStrRes : Op := .mk ⟨ "tf", "StrOp" ⟩ [] [⟨ 5, .tstring ⟩] none []

/-- module { cluster(gated) { opStrRes } } -/
def modStr : Op := mkModule [.mk clusterKind [] [] (some true) [.mk [] [opStrRes]]]

/-- A `tf` op whose operand is the string value `7`. -/
def opUseStr : Op := .mk ⟨ "tf", "Use" ⟩ [⟨ 7, .tstring ⟩] [] none []

/-- A `WhileRegion` whose body uses string value `7`, defined above it. -/
def whileCap : Op := .mk whileRegionKind [] [] none [.mk [] [opUseStr]]

/-- module { cluster(gated) { whileCap } } -/
def modWhile : Op := mkModule [.mk clusterKind [] [] (some true) [.mk [] [whileCap]]]

/-- A foreign-dialect op with a string-typed result. -/
def opForeignStr : Op := .mk ⟨ "mhlo", "Y" ⟩ [] [⟨ 9, .tstring ⟩] none []

/-- module { cluster(gated) { opForeignStr } } -/
def modForeign : Op :=
  mkModule [.mk clusterKind [] [] (some true) [.mk [] [opForeignStr]]]

/-- A marking placing the attribute on `opForeignStr` in `modForeign`. -/
def mForeign : Path → Bool := fun p => decide (p = [(0, 0), (0, 0)])

/-- A marking placing the attribute on `opForeign` and `opUnsup` in `modW`. -/
def mTwo : Path → Bool :=
  fun p => decide (p ∈ [[(0, 0), (0, 0)], [(0, 0), (0, 0), (0, 0)]])

/-- A marking placing the attribute on the module root and on `opForeign`
in `modW`. -/
def mRootMarked : Path → Bool :=
  fun p => decide (p ∈ [([] : Path), [(0, 0), (0, 0)]])

/-- The two marked ops of `modW`, child first (a post-order visit). -/
def wVisitPost : List Path := [[(0, 0), (0, 0), (0, 0)], [(0, 0), (0, 0)]]

/-- The two marked ops of `modW`, parent first. -/
def wVisitPre : List Path := [[(0, 0), (0, 0)], [(0, 0), (0, 0), (0, 0)]]

/-- A catalog rule with no identifiable root kind. -/
def ruleNoRoot : RewriteRule := ⟨ none ⟩

/-- A catalog rule rooted at `tf.A`. -/
def ruleA : RewriteRule := ⟨ some ⟨ "tf", "A" ⟩ ⟩

/-! ## Helper lemmas -/

theorem bool_eq_of_imp (a b : Bool) (h1 : a = true → b = true)
    (h2 : b = true → a = true) : a = b := by
  cases a <;> cases b <;> simp_all

/-- If the op at the proper prefix `p.take k` exists and is marked, the
parent-chain check succeeds. -/
theorem ancMarked_intro (t : Op) (m : Path → Bool) (p : Path) (k : Nat)
    (hk : k < p.length) (hv : isOpAt t (p.take k) = true)
    (hm : m (p.take k) = true) : ancMarked t m p = true := by
  simp only [ancMarked, List.any_eq_true, List.mem_range, Bool.and_eq_true]
  exact ⟨k, hk, hv, hm⟩

/-- The parent-chain check is monotone in the marking. -/
theorem ancMarked_mono (t : Op) (m m' : Path → Bool) (p : Path)
    (hmm : ∀ x, m x = true → m' x = true) (h : ancMarked t m p = true) :
    ancMarked t m' p = true := by
  simp only [ancMarked, List.any_eq_true, List.mem_range, Bool.and_eq_true] at h ⊢
  obtain ⟨k, hk, hv, hm⟩ := h
  exact ⟨k, hk, hv, hmm _ hm⟩

/-- A successful parent-chain check has a topmost witness: a marked valid
ancestor none of whose own ancestors is marked. -/
theorem ancMarked_topmost (t : Op) (m : Path → Bool) (p : Path)
    (h : ancMarked t m p = true) :
    ∃ k, k < p.length ∧ isOpAt t (p.take k) = true ∧ m (p.take k) = true ∧
      ancMarked t m (p.take k) = false := by
  have hex : ∃ k, k < p.length ∧ isOpAt t (p.take k) = true ∧
      m (p.take k) = true := by
    simpa only [ancMarked, List.any_eq_true, List.mem_range,
      Bool.and_eq_true] using h
  obtain ⟨hklt, hkval, hkm⟩ := Nat.find_spec hex
  refine ⟨Nat.find hex, hklt, hkval, hkm, ?_⟩
  cases hb : ancMarked t m (p.take (Nat.find hex)) with
  | false => rfl
  | true =>
    exfalso
    have hlen : (p.take (Nat.find hex)).length = Nat.find hex := by
      rw [List.length_take]
      exact min_eq_left (Nat.le_of_lt hklt)
    simp only [ancMarked, List.any_eq_true, List.mem_range,
      Bool.and_eq_true] at hb
    obtain ⟨j, hj, hjval, hjm⟩ := hb
    rw [hlen] at hj
    have htt : (p.take (Nat.find hex)).take j = p.take j := by
      rw [List.take_take]
      rw [min_eq_left (Nat.le_of_lt hj)]
    rw [htt] at hjval hjm
    exact Nat.find_min hex hj ⟨Nat.lt_trans hj hklt, hjval, hjm⟩

/-- If the op at `c` is a gated cluster, any path descending through its
region 0 is inside a gated body. -/
theorem inGatedBody_intro (t : Op) (c : Path) (op : Op) (j : Nat) (rest : Path)
    (hc : getOp t c = some op) (hg : isGatedCluster op = true) :
    inGatedBody t (c ++ (0, j) :: rest) = true := by
  simp only [inGatedBody, List.any_eq_true, List.mem_range, Bool.and_eq_true]
  refine ⟨c.length, by simp, ?_, ?_⟩
  · rw [List.take_left]
    simp [isGatedClusterAt, hc, hg]
  · rw [List.get?_append_right (le_refl _)]
    simp

/-- One visit of the incremental pruner, characterized against the initial
marking: starting from a marking that is `m0` minus the already-visited ops
with an `m0`-marked strict ancestor, a visit of `y` yields `m0` minus the
(`d` or `y`)-visited ops with an `m0`-marked strict ancestor. -/
theorem unmarkVisit_inv (t : Op) (m0 : Path → Bool) (d : Path → Bool)
    (m : Path → Bool)
    (hm : ∀ x, m x = (m0 x && !(d x && ancMarked t m0 x))) (y : Path) :
    ∀ x, unmarkVisit t m y x =
      (m0 x && !((d x || decide (x = y)) && ancMarked t m0 x)) := by
  intro x
  have hmono : ∀ z, m z = true → m0 z = true := by
    intro z hz
    rw [hm z] at hz
    exact ((Bool.and_eq_true _ _).mp hz).1
  unfold unmarkVisit
  by_cases hcond : (m y && ancMarked t m y) = true
  · rw [if_pos hcond]
    obtain ⟨hmy, hancy⟩ := (Bool.and_eq_true _ _).mp hcond
    by_cases hxy : x = y
    · subst hxy
      have h0 : m0 x = true := hmono x hmy
      have hanc0 : ancMarked t m0 x = true := ancMarked_mono t m m0 x hmono hancy
      simp [hanc0]
    · simp [hxy, hm x]
  · rw [if_neg hcond]
    by_cases hxy : x = y
    · subst hxy
      simp only [decide_True, Bool.or_true, Bool.true_and]
      cases h0 : m0 x with
      | false => rw [hm x, h0]; simp
      | true =>
        cases hanc0 : ancMarked t m0 x with
        | false => rw [hm x, h0, hanc0]; simp
        | true =>
          simp only [Bool.not_true, Bool.and_false]
          cases hmx : m x with
          | false => rfl
          | true =>
            exfalso
            apply hcond
            rw [hmx, Bool.true_and]
            obtain ⟨k, hk, hkval, hkm, hkanc⟩ :=
              ancMarked_topmost t m0 x hanc0
            have hmk : m (x.take k) = true := by
              rw [hm (x.take k), hkm, hkanc]
              simp
            exact ancMarked_intro t m x k hk hkval hmk
    · simp [hxy, hm x]

/-- The incremental `UnmarkChildren` walk over any visitation list, fully
characterized against the initial marking. -/
theorem unmarkWalk_inv (t : Op) (m0 : Path → Bool) (l : List Path) :
    ∀ (d : Path → Bool) (m : Path → Bool),
      (∀ x, m x = (m0 x && !(d x && ancMarked t m0 x))) →
      ∀ x, unmarkWalk t m l x =
        (m0 x && !((d x || decide (x ∈ l)) && ancMarked t m0 x)) := by
  induction l with
  | nil =>
    intro d m hm x
    simpa using hm x
  | cons y l ih =>
    intro d m hm x
    have hstep := unmarkVisit_inv t m0 d m hm y
    have hrec := ih (fun z => d z || decide (z = y)) (unmarkVisit t m y) hstep x
    have hmem : (decide (x = y) || decide (x ∈ l)) = decide (x ∈ y :: l) := by
      by_cases h1 : x = y <;> by_cases h2 : x ∈ l <;>
        simp_all [List.mem_cons]
    calc unmarkWalk t m (y :: l) x
        = unmarkWalk t (unmarkVisit t m y) l x := rfl
      _ = (m0 x && !(((d x || decide (x = y)) || decide (x ∈ l)) &&
            ancMarked t m0 x)) := hrec
      _ = (m0 x && !((d x || decide (x ∈ y :: l)) && ancMarked t m0 x)) := by
            rw [Bool.or_assoc, hmem]

/-- The incremental pruner starting from marking `m0` removes exactly the
visited ops that have an `m0`-marked strict ancestor. -/
theorem unmarkWalk_spec (t : Op) (m0 : Path → Bool) (l : List Path) (x : Path) :
    unmarkWalk t m0 l x = (m0 x && !(decide (x ∈ l) && ancMarked t m0 x)) := by
  have h := unmarkWalk_inv t m0 l (fun _ => false) m0 (by intro z; simp) x
  simpa using h

theorem walkerMark_apply (sup : List OpKind) (fb : OpKind → Bool) (t : Op)
    (m : Path → Bool) (p : Path) :
    walkerMark sup fb t m p =
      (m p || (isOpAt t p && inGatedBody t p && shouldMarkAt sup fb t p)) := rfl

theorem prunerUnmark_apply (t : Op) (m : Path → Bool) (p : Path) :
    prunerUnmark t m p =
      (m p && !(isOpAt t p && inGatedBody t p && ancMarked t m p)) := rfl

theorem runPass_apply (sup : List OpKind) (fb : OpKind → Bool) (t : Op)
    (m : Path → Bool) (p : Path) :
    runPass sup fb t m p =
      (walkerMark sup fb t m p &&
        !(isOpAt t p && inGatedBody t p &&
          ancMarked t (walkerMark sup fb t m) p)) := rfl

/-- Rerunning the walker after a full pass marks no op that the first walker
had not marked. -/
theorem walker_runPass_le (sup : List OpKind) (fb : OpKind → Bool) (t : Op)
    (m : Path → Bool) (z : Path)
    (h : walkerMark sup fb t (runPass sup fb t m) z = true) :
    walkerMark sup fb t m z = true := by
  rw [walkerMark_apply] at h
  rcases (Bool.or_eq_true _ _).mp h with h | h
  · rw [runPass_apply] at h
    exact ((Bool.and_eq_true _ _).mp h).1
  · rw [walkerMark_apply, h]
    simp

/-- The parent-chain test of the second run's pruner agrees with that of the
first run: pruning removes only ops that the walker re-marks, except where a
marked ancestor kills the test anyway, and a topmost marked ancestor is
never pruned. -/
theorem anc_walker_idem (sup : List OpKind) (fb : OpKind → Bool) (t : Op)
    (m : Path → Bool) (p : Path) :
    ancMarked t (walkerMark sup fb t (runPass sup fb t m)) p =
      ancMarked t (walkerMark sup fb t m) p := by
  apply bool_eq_of_imp
  · exact ancMarked_mono t _ _ p (walker_runPass_le sup fb t m)
  · intro h
    obtain ⟨k, hk, hval, hmk, hanck⟩ :=
      ancMarked_topmost t (walkerMark sup fb t m) p h
    apply ancMarked_intro t _ p k hk hval
    rw [walkerMark_apply, runPass_apply, hanck, hmk]
    simp

/-- Claim C2: running the full pass twice on the same compilation unit
yields exactly the same marker set as running it once. -/
theorem pass_idempotent (sup : List OpKind) (fb : OpKind → Bool) (t : Op)
    (m : Path → Bool) :
    runPass sup fb t (runPass sup fb t m) = runPass sup fb t m := by
  funext p
  rw [runPass_apply sup fb t (runPass sup fb t m) p, runPass_apply sup fb t m p,
    anc_walker_idem]
  have e1 : walkerMark sup fb t (runPass sup fb t m) p =
      ((walkerMark sup fb t m p &&
        !(isOpAt t p && inGatedBody t p &&
          ancMarked t (walkerMark sup fb t m) p)) ||
       (isOpAt t p && inGatedBody t p && shouldMarkAt sup fb t p)) := by
    rw [walkerMark_apply, runPass_apply]
  rw [e1, walkerMark_apply]
  generalize ancMarked t (walkerMark sup fb t m) p = b
  generalize m p = a
  generalize isOpAt t p = v
  generalize inGatedBody t p = g
  generalize shouldMarkAt sup fb t p = s
  revert a b v g s
  decide

/-! ## The claims -/

/-- Claim C7: the final marker set produced by the Pruner is invariant to the
order in which the marked operations are visited, and equals pruning computed
against the fully marked tree: an operation keeps the marker iff it was
marked and no strict ancestor of it is marked in the fully marked tree.  The
visitation lists are only required to cover, among the marked paths, exactly
the operations of the gated cluster bodies (the ops `UnmarkChildren` walks). -/
theorem pruner_order_independent (t : Op) (m0 : Path → Bool) (l1 l2 : List Path)
    (h1 : ∀ p, m0 p = true → (p ∈ l1 ↔ (isOpAt t p && inGatedBody t p) = true))
    (h2 : ∀ p, m0 p = true → (p ∈ l2 ↔ (isOpAt t p && inGatedBody t p) = true)) :
    (∀ p, unmarkWalk t m0 l1 p = prunerUnmark t m0 p) ∧
    (∀ p, unmarkWalk t m0 l2 p = prunerUnmark t m0 p) ∧
    (∀ p, unmarkWalk t m0 l1 p = unmarkWalk t m0 l2 p) := by
  have key : ∀ (l : List Path),
      (∀ p, m0 p = true → (p ∈ l ↔ (isOpAt t p && inGatedBody t p) = true)) →
      ∀ p, unmarkWalk t m0 l p = prunerUnmark t m0 p := by
    intro l hl p
    rw [unmarkWalk_spec]
    simp only [prunerUnmark]
    cases hm : m0 p with
    | false => simp
    | true =>
      have hd : decide (p ∈ l) = (isOpAt t p && inGatedBody t p) := by
        by_cases hp2 : p ∈ l
        · rw [(hl p hm).mp hp2]
          exact decide_eq_true hp2
        · have hb : (isOpAt t p && inGatedBody t p) = false := by
            cases hbb : (isOpAt t p && inGatedBody t p) with
            | false => rfl
            | true => exact absurd ((hl p hm).mpr hbb) hp2
          rw [hb]
          exact decide_eq_false hp2
      rw [hd, Bool.and_assoc]
  exact ⟨key l1 h1, key l2 h2,
    fun p => (key l1 h1 p).trans (key l2 h2 p).symm⟩

/-- Witness for C7 on `modW` with both `opForeign` and `opUnsup` marked,
visited child-first and parent-first. -/
theorem pruner_order_independent_witness :
    (∀ p, mTwo p = true →
      (p ∈ wVisitPost ↔ (isOpAt modW p && inGatedBody modW p) = true)) ∧
    (∀ p, mTwo p = true →
      (p ∈ wVisitPre ↔ (isOpAt modW p && inGatedBody modW p) = true)) ∧
    ((∀ p, unmarkWalk modW mTwo wVisitPost p = prunerUnmark modW mTwo p) ∧
     (∀ p, unmarkWalk modW mTwo wVisitPre p = prunerUnmark modW mTwo p) ∧
     (∀ p, unmarkWalk modW mTwo wVisitPost p = unmarkWalk modW mTwo wVisitPre p)) := by
  have hmem : ∀ p, mTwo p = true →
      p = [(0, 0), (0, 0)] ∨ p = [(0, 0), (0, 0), (0, 0)] := by
    intro p hp
    simpa [mTwo, List.mem_cons] using hp
  have h1 : ∀ p, mTwo p = true →
      (p ∈ wVisitPost ↔ (isOpAt modW p && inGatedBody modW p) = true) := by
    intro p hp
    rcases hmem p hp with rfl | rfl <;> exact (by decide)
  have h2 : ∀ p, mTwo p = true →
      (p ∈ wVisitPre ↔ (isOpAt modW p && inGatedBody modW p) = true) := by
    intro p hp
    rcases hmem p hp with rfl | rfl <;> exact (by decide)
  exact ⟨h1, h2, pruner_order_independent modW mTwo wVisitPost wVisitPre h1 h2⟩

/-- Claim C1: after a complete run of the pass, no operation inside a gated
cluster body that carries the marker has a strict ancestor inside the same
gated body that also carries it.  Here `c` is the gated cluster, `p` and `q`
are operations of its body (through region 0), and `q` is a strict ancestor
of `p` (`p = q ++ d, d ≠ []`). -/
theorem pass_ancestor_subsumption (sup : List OpKind) (fb : OpKind → Bool)
    (t : Op) (m : Path → Bool) (c q p d restp restq : Path) (jp jq : Nat)
    (opc opp opq : Op)
    (hc : getOp t c = some opc) (hck : opc.kind = clusterKind)
    (hcs : opc.softPlacement = some true)
    (hp : p = c ++ (0, jp) :: restp)
    (hq : q = c ++ (0, jq) :: restq)
    (hqp : p = q ++ d) (hd : d ≠ [])
    (hvp : getOp t p = some opp) (hvq : getOp t q = some opq)
    (hmp : runPass sup fb t m p = true) :
    runPass sup fb t m q = false := by
  have hg : isGatedCluster opc = true := by
    simp [isGatedCluster, hck, hcs]
  have hGp : inGatedBody t p = true := by
    rw [hp]
    exact inGatedBody_intro t c opc jp restp hc hg
  have hVp : isOpAt t p = true := by simp [isOpAt, hvp]
  rw [runPass_apply] at hmp
  obtain ⟨hXp, hnot⟩ := (Bool.and_eq_true _ _).mp hmp
  have hanc : ancMarked t (walkerMark sup fb t m) p = false := by
    rw [hVp, hGp] at hnot
    simpa using hnot
  cases hFq : runPass sup fb t m q with
  | false => rfl
  | true =>
    exfalso
    rw [runPass_apply] at hFq
    have hXq : walkerMark sup fb t m q = true :=
      ((Bool.and_eq_true _ _).mp hFq).1
    have htake : p.take q.length = q := by
      rw [hqp]
      exact List.take_left q d
    have hlen : q.length < p.length := by
      rw [hqp, List.length_append]
      have hdl : 0 < d.length := List.length_pos.mpr hd
      omega
    have hup : ancMarked t (walkerMark sup fb t m) p = true := by
      apply ancMarked_intro t _ p q.length hlen
      · rw [htake]
        simp [isOpAt, hvq]
      · rw [htake]
        exact hXq
    rw [hup] at hanc
    exact absurd hanc (by simp)

/-- Counterexample to claim C3 as stated: in
`module { cluster(gated) { cluster(no flag) { opUnsup } } }` the inner
cluster carries no soft-placement flag, yet the pass adds the marker to
`opUnsup`, inside the inner cluster's subtree, because the outer gated
cluster's walk covers the whole nested subtree. -/
theorem gating_frame_cex :
    (∃ opb, getOp modNest [(0, 0), (0, 0)] = some opb ∧
      opb.kind = clusterKind ∧ opb.softPlacement = none) ∧
    ([(0, 0), (0, 0), (0, 0)] : Path) = [(0, 0), (0, 0)] ++ [(0, 0)] ∧
    mNone [(0, 0), (0, 0), (0, 0)] = false ∧
    runPass [] fbNone modNest mNone [(0, 0), (0, 0), (0, 0)] = true := by
  exact ⟨⟨Op.mk clusterKind [] [] none [.mk [] [opUnsup]], rfl, rfl, rfl⟩,
    rfl, rfl, by decide⟩

/-- Claim C3, amended: for every cluster op whose soft-placement flag is
false or absent, the pass neither adds nor removes the marker on any
operation of that cluster's subtree that does not itself lie inside some
gated cluster's body (nesting of gated clusters around or below the ungated
one is the only way such an operation can be touched). -/
theorem gating_frame_amended (sup : List OpKind) (fb : OpKind → Bool) (t : Op)
    (m : Path → Bool) (c p d : Path) (opc : Op)
    (hc : getOp t c = some opc) (hck : opc.kind = clusterKind)
    (hcs : opc.softPlacement ≠ some true)
    (hp : p = c ++ d)
    (hng : inGatedBody t p = false) :
    runPass sup fb t m p = m p := by
  rw [runPass_apply, walkerMark_apply, hng]
  simp

/-- Claim C4: a `tf`-dialect operation inside a gated cluster body with a
string-typed operand or result carries the marker once the Walker phase has
completed, before any pruning. -/
theorem walker_string_exclusion (sup : List OpKind) (fb : OpKind → Bool)
    (t : Op) (m : Path → Bool) (p : Path) (op : Op)
    (hv : getOp t p = some op) (hg : inGatedBody t p = true)
    (hd : op.kind.dialect = tfDialect)
    (hs : (hasStringOperand op || hasStringResult op) = true) :
    walkerMark sup fb t m p = true := by
  rw [walkerMark_apply]
  have hV : isOpAt t p = true := by simp [isOpAt, hv]
  have hS : shouldMarkAt sup fb t p = true := by
    simp only [shouldMarkAt, hv]
    simp only [shouldMark, isSupportedOp, hd]
    rcases (Bool.or_eq_true _ _).mp hs with h | h
    · simp [h]
    · simp [h]
  rw [hV, hg, hS]
  simp

/-- Claim C5: an `IfRegion`/`WhileRegion` operation inside a gated cluster
body that captures a string-typed value from an enclosing scope is marked by
the Walker, whatever the supported set says about its kind. -/
theorem walker_captured_string_override (sup : List OpKind)
    (fb : OpKind → Bool) (t : Op) (m : Path → Bool) (p : Path) (op : Op)
    (hv : getOp t p = some op) (hg : inGatedBody t p = true)
    (hcf : op.kind = ifRegionKind ∨ op.kind = whileRegionKind)
    (hcap : hasCapturedStringOperand op = true) :
    walkerMark sup fb t m p = true := by
  rw [walkerMark_apply]
  have hV : isOpAt t p = true := by simp [isOpAt, hv]
  have hS : shouldMarkAt sup fb t p = true := by
    simp only [shouldMarkAt, hv]
    have hcfb : isControlFlowRegionOp op = true := by
      rcases hcf with h | h <;> simp [isControlFlowRegionOp, h]
    simp [shouldMark, hcfb, hcap]
  rw [hV, hg, hS]
  simp

/-- Claim C6: the pass never adds the marker to an operation whose dialect
differs from `tf`: if such an op is marked after the pass, it was marked
before. -/
theorem pass_dialect_exemption (sup : List OpKind) (fb : OpKind → Bool)
    (t : Op) (m : Path → Bool) (p : Path) (op : Op)
    (hv : getOp t p = some op) (hd : op.kind.dialect ≠ tfDialect)
    (hm : runPass sup fb t m p = true) : m p = true := by
  have hS : shouldMarkAt sup fb t p = false := by
    simp only [shouldMarkAt, hv]
    simp only [shouldMark, isSupportedOp]
    rw [if_pos hd]
    have hif : op.kind ≠ ifRegionKind := by
      intro he
      apply hd
      rw [he]
      rfl
    have hwh : op.kind ≠ whileRegionKind := by
      intro he
      apply hd
      rw [he]
      rfl
    simp [isControlFlowRegionOp, hif, hwh]
  rw [runPass_apply, walkerMark_apply, hS] at hm
  simp only [Bool.and_false, Bool.or_false] at hm
  exact ((Bool.and_eq_true _ _).mp hm).1

/-- Claim C8 (code bug): the loop building `supported_ops` dereferences
`pattern->getRootKind()` without checking it; a catalog rule with no root
kind has no defined result (undefined behavior) instead of being skipped as
the claim states, while the spec-modelled skipping builder completes with the
fixed kinds.  Rules that do declare a root kind contribute it, and the fixed
control-flow and embedding kinds are always appended. -/
theorem builder_root_kind_bug :
    buildSupportedOps [ruleNoRoot] = none ∧
    buildSupportedOpsSpecSkip [ruleNoRoot] = fixedSupportedOps ∧
    buildSupportedOps [] = some fixedSupportedOps ∧
    buildSupportedOps [ruleA] = some (⟨ "tf", "A" ⟩ :: fixedSupportedOps) :=
  ⟨rfl, rfl, rfl, rfl⟩

/-- Claim C9 (code bug): with the `tf` dialect unregistered the pass fails
and leaves the marking untouched, as claimed, whatever the catalog; with the
dialect registered and a well-formed catalog it succeeds; but a catalog rule
with no root kind gives the run no defined result (undefined behavior in the
builder), contradicting the claim that every situation other than the
missing dialect completes successfully. -/
theorem driver_error_taxonomy_bug :
    runOnOperation false [ruleNoRoot] fbNone modW mNone = some (false, mNone) ∧
    runOnOperation false [ruleA] fbNone modW mNone = some (false, mNone) ∧
    runOnOperation true [ruleA] fbNone modW mNone =
      some (true, runPass (⟨ "tf", "A" ⟩ :: fixedSupportedOps) fbNone modW mNone) ∧
    runOnOperation true [ruleNoRoot] fbNone modW mNone = none :=
  ⟨rfl, rfl, rfl, rfl⟩

/-- Claim C10: the Pruner's upward walk does not stop at the gated cluster's
boundary: if the cluster op itself or any ancestor above it (`c = q ++ d`,
`d` possibly empty) carries the marker, every operation of the cluster's
body loses the marker, marked or not. -/
theorem pruner_crosses_cluster_boundary (t : Op) (m : Path → Bool)
    (c q p d rest : Path) (j : Nat) (opc opq opp : Op)
    (hc : getOp t c = some opc) (hck : opc.kind = clusterKind)
    (hcs : opc.softPlacement = some true)
    (hcq : c = q ++ d) (hvq : getOp t q = some opq) (hmq : m q = true)
    (hp : p = c ++ (0, j) :: rest) (hvp : getOp t p = some opp) :
    prunerUnmark t m p = false := by
  have hg : isGatedCluster opc = true := by
    simp [isGatedCluster, hck, hcs]
  have hGp : inGatedBody t p = true := by
    rw [hp]
    exact inGatedBody_intro t c opc j rest hc hg
  have hVp : isOpAt t p = true := by simp [isOpAt, hvp]
  have hqp : p = q ++ (d ++ (0, j) :: rest) := by
    rw [hp, hcq, List.append_assoc]
  have htake : p.take q.length = q := by
    rw [hqp]
    exact List.take_left q _
  have hlen : q.length < p.length := by
    rw [hqp, List.length_append, List.length_append, List.length_cons]
    omega
  have hanc : ancMarked t m p = true := by
    apply ancMarked_intro t m p q.length hlen
    · rw [htake]
      simp [isOpAt, hvq]
    · rw [htake]
      exact hmq
  rw [prunerUnmark_apply, hVp, hGp, hanc]
  simp

/-- Witness for C1 on `modW`: after the pass `opUnsup` is marked and its
ancestor `opForeign`, inside the same gated body, is not. -/
theorem pass_ancestor_subsumption_witness :
    runPass [] fbNone modW mNone [(0, 0), (0, 0), (0, 0)] = true ∧
    runPass [] fbNone modW mNone [(0, 0), (0, 0)] = false := by
  refine ⟨by decide, ?_⟩
  exact pass_ancestor_subsumption [] fbNone modW mNone [(0, 0)]
    [(0, 0), (0, 0)] [(0, 0), (0, 0), (0, 0)] [(0, 0)] [(0, 0)] [] 0 0
    clusterGatedW opUnsup opForeign rfl rfl rfl rfl rfl rfl (by decide)
    rfl rfl (by decide)

/-- Witness for the amended C3 on `modUngated`: the op inside the ungated
cluster keeps its (empty) marking. -/
theorem gating_frame_amended_witness :
    inGatedBody modUngated [(0, 0), (0, 0)] = false ∧
    runPass [] fbNone modUngated mNone [(0, 0), (0, 0)] =
      mNone [(0, 0), (0, 0)] := by
  refine ⟨by decide, ?_⟩
  exact gating_frame_amended [] fbNone modUngated mNone [(0, 0)]
    [(0, 0), (0, 0)] [(0, 0)]
    (Op.mk clusterKind [] [] (some false) [.mk [] [opUnsup]])
    rfl rfl (by decide) rfl (by decide)

/-- Witness for C4 on `modStr`: the string-result `tf` op is marked by the
Walker. -/
theorem walker_string_exclusion_witness :
    (hasStringOperand opStrRes || hasStringResult opStrRes) = true ∧
    walkerMark [] fbNone modStr mNone [(0, 0), (0, 0)] = true := by
  refine ⟨by decide, ?_⟩
  exact walker_string_exclusion [] fbNone modStr mNone [(0, 0), (0, 0)]
    opStrRes rfl (by decide) rfl (by decide)

/-- Witness for C5 on `modWhile`: the `WhileRegion` kind is in the supported
set, yet the captured string value gets it marked. -/
theorem walker_captured_string_override_witness :
    decide (whileRegionKind ∈ fixedSupportedOps) = true ∧
    hasCapturedStringOperand whileCap = true ∧
    walkerMark fixedSupportedOps fbNone modWhile mNone [(0, 0), (0, 0)] = true := by
  refine ⟨by decide, by decide, ?_⟩
  exact walker_captured_string_override fixedSupportedOps fbNone modWhile
    mNone [(0, 0), (0, 0)] whileCap rfl (by decide) (Or.inr rfl) (by decide)

/-- Witness for C6 on `modForeign`: the foreign-dialect string-result op is
marked after the pass only because it was marked before. -/
theorem pass_dialect_exemption_witness :
    opForeignStr.kind.dialect ≠ tfDialect ∧
    runPass [] fbNone modForeign mForeign [(0, 0), (0, 0)] = true ∧
    mForeign [(0, 0), (0, 0)] = true := by
  refine ⟨by decide, by decide, ?_⟩
  exact pass_dialect_exemption [] fbNone modForeign mForeign [(0, 0), (0, 0)]
    opForeignStr rfl (by decide) (by decide)

/-- Witness for C10 on `modW` with the module root pre-marked: the marked op
`opForeign` inside the gated body loses its marker, the chain check having
crossed the cluster boundary up to the root. -/
theorem pruner_crosses_cluster_boundary_witness :
    mRootMarked [] = true ∧ mRootMarked [(0, 0), (0, 0)] = true ∧
    prunerUnmark modW mRootMarked [(0, 0), (0, 0)] = false := by
  refine ⟨by decide, by decide, ?_⟩
  exact pruner_crosses_cluster_boundary modW mRootMarked [(0, 0)] []
    [(0, 0), (0, 0)] [(0, 0)] [] 0 clusterGatedW modW opForeign
    rfl rfl rfl rfl rfl (by decide) rfl rfl

end MarkOutside
